import Mathlib

/-!
# Verification of the UPSC test generator core (`index.tsx`)

This file gives a shallow embedding, in Lean 4, of the core of the
`UPSC-TEST-GENERATOR-2-main/index.tsx` program:

* the bulk question-text parser `parseManualQuestions` (lines 1126-1254),
  including the exact JavaScript regular-expression behaviour of its
  split pattern, its label matchers and its option matchers,
* the scoring part of `handleSubmitTest` (lines 2128-2165),
* the attempt state machine: `saveCurrentAnswer` (2015-2027),
  `navigateToQuestion` (2029-2062) and the mark-for-review handler
  (2102-2110).

JavaScript strings are modelled as `List Char`; JavaScript numbers that
the claims touch are modelled as exact rationals (`ℚ`) or integers (`ℤ`).
Regular expressions are modelled by ordered-backtracking matchers: a
matcher maps an input suffix to the list of possible remaining suffixes
in the priority order a JavaScript engine explores them (greedy
quantifiers longest-first, `?` present-first, alternatives in source
order), so the first successful continuation is the one the engine picks.
-/

namespace Upsc

/-! ## JavaScript character classes -/

/-- The JavaScript `\s` class (also the set stripped by `String.trim`):
whitespace and line terminators. -/
def jsWS (c : Char) : Bool :=
  c = ' ' || c = '\t' || c = '\n' || c = '\r' || c = '\x0b' || c = '\x0c' ||
  c = '\u00A0' || c = '\u1680' || ('\u2000' ≤ c && c ≤ '\u200A') ||
  c = '\u2028' || c = '\u2029' || c = '\u202F' || c = '\u205F' ||
  c = '\u3000' || c = '\uFEFF'

/-- JavaScript line terminators (the characters `.` does not match and the
characters relevant to the `$` anchor). -/
def lineTerm (c : Char) : Bool :=
  c = '\n' || c = '\r' || c = '\u2028' || c = '\u2029'

def asciiDigit (c : Char) : Bool := '0' ≤ c && c ≤ '9'

/-- The class `[A-Z]` under the `i` flag: any ASCII letter, either case. -/
def asciiLetter (c : Char) : Bool :=
  ('A' ≤ c && c ≤ 'Z') || ('a' ≤ c && c ≤ 'z')

/-- ASCII lower-casing, as used by `toLowerCase`/the `i` flag on the
characters these regexes deal with. -/
def lowerChar (c : Char) : Char :=
  if 'A' ≤ c && c ≤ 'Z' then Char.ofNat (c.toNat + 32) else c

/-- The class `[a-d]` under the `i` flag. -/
def optLetter (c : Char) : Bool :=
  ('a' ≤ c && c ≤ 'd') || ('A' ≤ c && c ≤ 'D')

/-- The class `[1-4]`. -/
def digit14 (c : Char) : Bool := '1' ≤ c && c ≤ '4'

/-- The literal `Q` under the `i` flag. -/
def qCI (c : Char) : Bool := c = 'Q' || c = 'q'

/-- The separator class `[:.-]` used after the field labels. -/
def sepCls (c : Char) : Bool := c = ':' || c = '.' || c = '-'

/-- A string literal as a character list. -/
def toL (s : String) : List Char := s.data

/-- JavaScript `String.trim`. -/
def trimJS (s : List Char) : List Char :=
  ((s.dropWhile jsWS).reverse.dropWhile jsWS).reverse

/-- Case-insensitive (ASCII) test that `w` is an initial segment of `s`;
models matching a literal word of an `i`-flagged regex at the current
position. -/
def leadsWithCI : List Char → List Char → Bool
  | [], _ => true
  | _ :: _, [] => false
  | w :: ws, c :: cs => lowerChar w = lowerChar c && leadsWithCI ws cs

/-! ## Ordered-backtracking regex primitives

Each primitive maps an input suffix to the list of suffixes left after
consuming a match, in the order a JavaScript engine tries them. -/

/-- A greedy star over a one-character class (`c*`): longest match first. -/
def nStar (f : Char → Bool) : List Char → List (List Char)
  | [] => [[]]
  | c :: cs => if f c then nStar f cs ++ [c :: cs] else [c :: cs]

/-- A greedy option over a one-character class (`c?`): present first. -/
def nOpt (f : Char → Bool) : List Char → List (List Char)
  | [] => [[]]
  | c :: cs => if f c then [cs, c :: cs] else [c :: cs]

/-- A single mandatory character of a class. -/
def nOne (f : Char → Bool) : List Char → List (List Char)
  | [] => []
  | c :: cs => if f c then [cs] else []

/-- Sequencing: feed every remainder, in order, to the next matcher. -/
def nseq (rs : List (List Char)) (m : List Char → List (List Char)) :
    List (List Char) :=
  rs.flatMap m

/-- Try the continuation on each remainder in priority order; the first
success is the engine's answer. -/
def firstHit {α : Type} : List (List Char) → (List Char → Option α) → Option α
  | [], _ => none
  | r :: rs, f =>
    match f r with
    | some a => some a
    | none => firstHit rs f

/-- Leftmost matching: try the position matcher at every start position,
left to right (including the end-of-string position). -/
def scanFirst {α : Type} (f : List Char → Option α) : List Char → Option α
  | [] => f []
  | c :: cs =>
    match f (c :: cs) with
    | some a => some a
    | none => scanFirst f cs

/-- A lazy star `X*?` over the class `f` followed by a lookahead `look`:
consume as little as possible until the lookahead holds. Returns the
remainder at the (zero-width) match end. -/
def lazyClsUntil (f : Char → Bool) (look : List Char → Bool) :
    List Char → Option (List Char)
  | [] => if look [] then some [] else none
  | c :: cs =>
    if look (c :: cs) then some (c :: cs)
    else if f c then lazyClsUntil f look cs else none

/-- Lazy star `[\s\S]*?` (any character) followed by a lookahead. -/
def lazyUntil (look : List Char → Bool) : List Char → Option (List Char)
  | [] => if look [] then some [] else none
  | c :: cs => if look (c :: cs) then some (c :: cs) else lazyUntil look cs

/-- The first character of the remainder is an ASCII letter — the
`(?=[A-Z])` lookahead of the `i`-flagged split regex. -/
def headLetter : List Char → Bool
  | [] => false
  | c :: _ => asciiLetter c

/-! ## The split pattern (line 1131)

`text.split(/(?=(?:^|\n)\s*(?:\d+[\.\)]\s*|\(?Q?\.?\d*\)?\.?\s*|Q\s*\.?\s*\d*\.?\s*)(?=[A-Z]))/i)`

The whole pattern is a zero-width lookahead, so `split` cuts the text at
every interior position where it matches.  For a position `q > 0` the
`(?:^|\n)` part can only match a literal `'\n'` (there is no `m` flag, so
`^` matches only at position 0, where `split` never cuts). -/

/-- First alternative `\d+[\.\)]\s*` followed by the letter lookahead. -/
def altA1 (r : List Char) : Bool :=
  (nseq (nseq (nseq (nOne asciiDigit r) (nStar asciiDigit))
      (nOne fun c => c = '.' || c = ')')) (nStar jsWS)).any headLetter

/-- Second alternative `\(?Q?\.?\d*\)?\.?\s*` followed by the letter
lookahead.  Every piece is optional, so this alternative also matches the
empty string. -/
def altA2 (r : List Char) : Bool :=
  (nseq (nseq (nseq (nseq (nseq (nseq (nOpt (fun c => c = '(') r)
      (nOpt qCI)) (nOpt fun c => c = '.')) (nStar asciiDigit))
      (nOpt fun c => c = ')')) (nOpt fun c => c = '.')) (nStar jsWS)).any
    headLetter

/-- Third alternative `Q\s*\.?\s*\d*\.?\s*` followed by the letter
lookahead. -/
def altA3 (r : List Char) : Bool :=
  (nseq (nseq (nseq (nseq (nseq (nseq (nOne qCI r) (nStar jsWS))
      (nOpt fun c => c = '.')) (nStar jsWS)) (nStar asciiDigit))
      (nOpt fun c => c = '.')) (nStar jsWS)).any headLetter

/-- Matches `\s*(?:alt1|alt2|alt3)(?=[A-Z])` applied after the `'\n'`. -/
def markerLetter (rest : List Char) : Bool :=
  (nStar jsWS rest).any fun r => altA1 r || altA2 r || altA3 r

/-- Does the split lookahead match at the position starting this suffix
(for interior positions, i.e. through its `\n` branch)? -/
def splitMarkAt : List Char → Bool
  | '\n' :: rest => markerLetter rest
  | _ => false

/-- Walk the text accumulating the current segment (reversed); cut before
every interior position where the lookahead matches. -/
def jsSplitAux (cur : List Char) : List Char → List (List Char)
  | [] => [cur.reverse]
  | c :: cs =>
    if splitMarkAt (c :: cs) then cur.reverse :: jsSplitAux [c] cs
    else jsSplitAux (c :: cur) cs

/-- Model of `text.split(re)` for the zero-width split regex: position 0 is never a
cut (a zero-width match at the start of the current segment is skipped by
the `split` algorithm). -/
def jsSplit : List Char → List (List Char)
  | [] => [[]]
  | c :: cs => jsSplitAux [c] cs

/-- Keep only blocks with non-empty trim: `.filter(block => block.trim())` (line 1132). -/
def questionBlocksOf (t : List Char) : List (List Char) :=
  (jsSplit t).filter fun b => trimJS b ≠ []

/-! ## The field extractor (lines 1148-1235)

All matchers below work on the trimmed block `lines`. -/

/-- The answer declaration `(?:Answer|Ans|उत्तर|सही उत्तर)\s*[:.-]?\s*([a-dA-D1-4])`
with the `i` flag: the tail after a label, returning the captured answer
character. -/
def ansTail (r : List Char) : Option Char :=
  firstHit (nseq (nseq (nStar jsWS r) (nOpt sepCls)) (nStar jsWS)) fun r' =>
    match r' with
    | c :: _ => if optLetter c || digit14 c then some c else none
    | [] => none

/-- Try the answer-label alternatives, in source order, at one position. -/
def ansAt (s : List Char) : Option Char :=
  firstHit [toL ("answer"), toL ("ans"), toL ("उत्तर"), toL ("सही उत्तर")] fun w =>
    if leadsWithCI w s then ansTail (s.drop w.length) else none

/-- Model of `lines.match(/(?:Answer|Ans|उत्तर|सही उत्तर)\s*[:.-]?\s*([a-dA-D1-4])/i)`
(line 1148), returning the capture. -/
def answerMatchOf (lines : List Char) : Option Char :=
  scanFirst ansAt lines

/-- The lookahead `(?=(?:Subject|Topic|विषय|$))` ending the explanation
capture. -/
def explLook (r : List Char) : Bool :=
  leadsWithCI (toL ("subject")) r || leadsWithCI (toL ("topic")) r ||
  leadsWithCI (toL ("विषय")) r || r.isEmpty

/-- Tail of the explanation pattern after a label:
`\s*[:.-]?\s*([\s\S]*?)(?=(?:Subject|Topic|विषय|$))`, returning the capture. -/
def explTail (r : List Char) : Option (List Char) :=
  firstHit (nseq (nseq (nStar jsWS r) (nOpt sepCls)) (nStar jsWS)) fun r0 =>
    match lazyUntil explLook r0 with
    | some r1 => some (r0.take (r0.length - r1.length))
    | none => none

/-- Try the explanation-label alternatives, in source order, at one
position. -/
def explAt (s : List Char) : Option (List Char) :=
  firstHit [toL ("explanation"), toL ("exp"), toL ("व्याख्या"), toL ("विवरण")] fun w =>
    if leadsWithCI w s then explTail (s.drop w.length) else none

/-- Model of the `explanationMatch` regex (line 1149), returning the
capture. -/
def explanationMatchOf (lines : List Char) : Option (List Char) :=
  scanFirst explAt lines

/-- The capture class `[^||\n]`: any character other than `|` and `\n`. -/
def subjCls (c : Char) : Bool := c ≠ '|' && c ≠ '\n'

/-- Tail of the subject/topic patterns after a label:
`\s*[:.-]?\s*([^||\n]+)`, returning the greedy non-empty capture. -/
def subjTail (r : List Char) : Option (List Char) :=
  firstHit (nseq (nseq (nStar jsWS r) (nOpt sepCls)) (nStar jsWS)) fun r0 =>
    let cap := r0.takeWhile subjCls
    if cap.isEmpty then none else some cap

/-- Model of `lines.match(/(?:Subject|विषय)\s*[:.-]?\s*([^||\n]+)/i)`
(line 1150), returning the capture. -/
def subjectMatchOf (lines : List Char) : Option (List Char) :=
  scanFirst
    (fun s =>
      firstHit [toL ("subject"), toL ("विषय")] fun w =>
        if leadsWithCI w s then subjTail (s.drop w.length) else none)
    lines

/-- Model of `lines.match(/(?:Topic|टॉपिक)\s*[:.-]?\s*([^||\n]+)/i)`
(line 1151), returning the capture. -/
def topicMatchOf (lines : List Char) : Option (List Char) :=
  scanFirst
    (fun s =>
      firstHit [toL ("topic"), toL ("टॉपिक")] fun w =>
        if leadsWithCI w s then subjTail (s.drop w.length) else none)
    lines

/-! ### The option patterns (lines 1177-1181) -/

/-- The bracket class `[\)\.\]]` of the option patterns. -/
def bracketCls (c : Char) : Bool := c = ')' || c = '.' || c = ']'

/-- After one class character, `\s*` then a bracket: used inside the
lookaheads `[a-d]\s*[\)\.\]]` / `[1-4]\s*[\)\.\]]` (deterministic, since
no bracket is whitespace). -/
def bracketAfterWS (rest : List Char) : Bool :=
  match rest.dropWhile jsWS with
  | c :: _ => bracketCls c
  | [] => false

/-- Lookahead of option pattern 1:
`(?=(?:[a-d]\s*[\)\.\]]|Answer|Ans|Explanation|Subject|Topic|$))`. -/
def look1 (r : List Char) : Bool :=
  (match r with
   | c :: rest => optLetter c && bracketAfterWS rest
   | [] => false) ||
  leadsWithCI (toL ("answer")) r || leadsWithCI (toL ("ans")) r ||
  leadsWithCI (toL ("explanation")) r || leadsWithCI (toL ("subject")) r ||
  leadsWithCI (toL ("topic")) r || r.isEmpty

/-- Lookahead of option pattern 2: the marker alternative is `\([a-d]\)`. -/
def look2 (r : List Char) : Bool :=
  (match r with
   | '(' :: c :: ')' :: _ => optLetter c
   | _ => false) ||
  leadsWithCI (toL ("answer")) r || leadsWithCI (toL ("ans")) r ||
  leadsWithCI (toL ("explanation")) r || leadsWithCI (toL ("subject")) r ||
  leadsWithCI (toL ("topic")) r || r.isEmpty

/-- Lookahead of option pattern 3: the marker alternative is
`[1-4]\s*[\)\.\]]`. -/
def look3 (r : List Char) : Bool :=
  (match r with
   | c :: rest => digit14 c && bracketAfterWS rest
   | [] => false) ||
  leadsWithCI (toL ("answer")) r || leadsWithCI (toL ("ans")) r ||
  leadsWithCI (toL ("explanation")) r || leadsWithCI (toL ("subject")) r ||
  leadsWithCI (toL ("topic")) r || r.isEmpty

/-- Capture class of pattern 1, `[^a-d\)\.\]]` under `i`. -/
def cap1Cls (c : Char) : Bool := !(optLetter c || bracketCls c)

/-- Capture class of pattern 2, `[^()]`. -/
def cap2Cls (c : Char) : Bool := c ≠ '(' && c ≠ ')'

/-- Capture class of pattern 3, `[^1-4\)\.\]]`. -/
def cap3Cls (c : Char) : Bool := !(digit14 c || bracketCls c)

/-- Attempt pattern 1
`([a-d])\s*[\)\.\]]\s*([^a-d\)\.\]]*?)(?=...)` at one position; on success
return the second capture and the remainder at the match end. -/
def p1At (s : List Char) : Option (List Char × List Char) :=
  match s with
  | c :: cs =>
    if optLetter c then
      firstHit (nStar jsWS cs) fun r1 =>
        match r1 with
        | b :: r2 =>
          if bracketCls b then
            firstHit (nStar jsWS r2) fun r3 =>
              match lazyClsUntil cap1Cls look1 r3 with
              | some r4 => some (r3.take (r3.length - r4.length), r4)
              | none => none
          else none
        | [] => none
    else none
  | [] => none

/-- Attempt pattern 2 `\(([a-d])\)\s*([^()]*?)(?=...)` at one position. -/
def p2At (s : List Char) : Option (List Char × List Char) :=
  match s with
  | '(' :: c :: ')' :: r2 =>
    if optLetter c then
      firstHit (nStar jsWS r2) fun r3 =>
        match lazyClsUntil cap2Cls look2 r3 with
        | some r4 => some (r3.take (r3.length - r4.length), r4)
        | none => none
    else none
  | _ => none

/-- Attempt pattern 3 `([1-4])\s*[\)\.\]]\s*([^1-4\)\.\]]*?)(?=...)` at
one position. -/
def p3At (s : List Char) : Option (List Char × List Char) :=
  match s with
  | c :: cs =>
    if digit14 c then
      firstHit (nStar jsWS cs) fun r1 =>
        match r1 with
        | b :: r2 =>
          if bracketCls b then
            firstHit (nStar jsWS r2) fun r3 =>
              match lazyClsUntil cap3Cls look3 r3 with
              | some r4 => some (r3.take (r3.length - r4.length), r4)
              | none => none
          else none
        | [] => none
    else none
  | [] => none

/-- Model of `[...lines.matchAll(pattern)]` for a `g`-flagged pattern:
scan left to right, resume each search at the previous match end
(advancing by one character if a match were empty), and collect the
captures.  The fuel only bounds the number of scan steps (each step
strictly shortens the suffix, so `length + 1` steps always suffice); it
keeps the recursion structural. -/
def matchAllGo (pm : List Char → Option (List Char × List Char)) :
    ℕ → List Char → List (List Char)
  | 0, _ => []
  | _ + 1, [] =>
    match pm [] with
    | some (a, _) => [a]
    | none => []
  | fuel + 1, c :: cs =>
    match pm (c :: cs) with
    | some (a, r) =>
      if r.length < (c :: cs).length then a :: matchAllGo pm fuel r
      else a :: matchAllGo pm fuel cs
    | none => matchAllGo pm fuel cs

/-- Collect all matches of a `g`-flagged pattern over the whole string. -/
def matchAllP (pm : List Char → Option (List Char × List Char))
    (s : List Char) : List (List Char) :=
  matchAllGo pm (s.length + 1) s

/-- Leftmost match of `Answer`/`Explanation`/`Subject`/`Topic` whose tail
runs to the end of the string with no line terminator, removed together
with everything after it: one `.replace(/Word.*$/i, '')` cleaning step
(lines 1193-1196). -/
def stripTail (w : List Char) : List Char → List Char
  | [] => []
  | c :: cs =>
    if leadsWithCI w (c :: cs) && ((c :: cs).drop w.length).all (fun d => !lineTerm d) then
      []
    else c :: stripTail w cs

/-- The option-text cleaning of lines 1192-1197: trim, strip an
`Answer`/`Explanation`/`Subject`/`Topic` tail, trim again. -/
def cleanOpt (t : List Char) : List Char :=
  trimJS (stripTail (toL ("topic")) (stripTail (toL ("subject"))
    (stripTail (toL ("explanation")) (stripTail (toL ("answer")) (trimJS t)))))

/-- Push each cleaned option text, keeping only the non-empty ones
(lines 1191-1201). -/
def optionsFromMatches (ms : List (List Char)) : List (List Char) :=
  ms.filterMap fun m => let t := cleanOpt m; if t = [] then none else some t

/-- Model of `lines.match(/([a-d1-4])\s*[\)\.\]]/i)` (line 1205),
returning the index of the leftmost match. -/
def firstOptIdx : List Char → Option ℕ
  | [] => none
  | c :: cs =>
    if (optLetter c || digit14 c) && bracketAfterWS cs then some 0
    else (firstOptIdx cs).map (· + 1)

/-- One iteration of the option-finding loop of lines 1183-1212 (state:
`(options, optionsEndIndex, done)`, where `done` models the `break`): a
pattern with at least 2 raw matches resets `options` to its cleaned
matches; if at least 2 cleaned options survive, set `optionsEndIndex`
from the first option marker and stop. -/
def foStep (lines : List Char) (st : List (List Char) × ℕ × Bool)
    (pm : List Char → Option (List Char × List Char)) :
    List (List Char) × ℕ × Bool :=
  match st with
  | (opts, endIdx, done) =>
    if done then (opts, endIdx, done)
    else
      let ms := matchAllP pm lines
      if ms.length ≥ 2 then
        let opts' := optionsFromMatches ms
        if opts'.length ≥ 2 then
          let endIdx' :=
            match firstOptIdx lines with
            | some i => i
            | none => endIdx
          (opts', endIdx', true)
        else (opts', endIdx, false)
      else (opts, endIdx, false)

/-- Run the three patterns (in source order) through the loop above. -/
def findOptions (lines : List Char) : List (List Char) × ℕ :=
  let r := [p1At, p2At, p3At].foldl (foStep lines) ([], lines.length, false)
  (r.1, r.2.1)

/-! ### Stem extraction and assembly (lines 1214-1247) -/

/-- The class `[\s\d\.\)\(Q]` under `i` of the question-number stripping
regex (line 1216). -/
def numPre (c : Char) : Bool :=
  jsWS c || asciiDigit c || c = '.' || c = ')' || c = '(' || qCI c

/-- Worker for `collapseWS`: the flag records whether the previous
character was whitespace (i.e. we are inside a run already replaced). -/
def collapseWSGo : Bool → List Char → List Char
  | _, [] => []
  | inRun, c :: cs =>
    if jsWS c then
      if inRun then collapseWSGo true cs else ' ' :: collapseWSGo true cs
    else c :: collapseWSGo false cs

/-- Model of `.replace(/\s+/g, ' ')`: collapse each whitespace run to a
single space. -/
def collapseWS (s : List Char) : List Char :=
  collapseWSGo false s

/-- The question text of lines 1215-1218: everything before the options,
with the numbering class stripped from the front, whitespace collapsed,
and the result trimmed. -/
def stemOf (lines : List Char) (endIdx : ℕ) : List Char :=
  trimJS (collapseWS ((lines.take endIdx).dropWhile numPre))

/-- The placeholder texts pushed by the padding loop of lines 1221-1223. -/
def optDefaults : List (List Char) :=
  [toL ("Option 1"), toL ("Option 2"), toL ("Option 3"), toL ("Option 4")]

/-- The padding loop (`while (options.length < 4) push`) followed by
`options.slice(0, 4)`: each pushed placeholder is `Option (length+1)` of
the list at the time of the push. -/
def padOptions (l : List (List Char)) : List (List Char) :=
  (l ++ optDefaults.drop l.length).take 4

/-- Answer-letter/digit conversion and clamping, lines 1227-1235. The
capture was lower-cased at line 1155. -/
def answerIndexOf (ansTxt : Option Char) : ℤ :=
  let raw : ℤ :=
    match ansTxt with
    | none => 0
    | some ch =>
      let a := lowerChar ch
      if 'a' ≤ a && a ≤ 'd' then (a.toNat : ℤ) - 97
      else if '1' ≤ a && a ≤ '4' then (a.toNat : ℤ) - 48 - 1
      else 0
  max 0 (min 3 raw)

/-- One multiple-choice question, mirroring the `Question` interface of
`index.tsx` lines 12-19. -/
structure Question where
  question : String
  options : List String
  answer : ℤ
  explanation : String
  subject : String
  topic : String
deriving DecidableEq, Repr

/-- Processing of one block of the split (the body of the `forEach` at
lines 1134-1251). `none` models a block that contributes no question. -/
def parseBlock (block : List Char) : Option Question :=
  let lines := trimJS block
  -- `if (!lines || lines.length < 10) return;` — an empty trim also has
  -- length < 10
  if lines.length < 10 then none
  else
    let answerText := answerMatchOf lines
    let explanationText := (explanationMatchOf lines).map trimJS
    let subjectText := (subjectMatchOf lines).map trimJS
    let topicText := (topicMatchOf lines).map trimJS
    let fo := findOptions lines
    let questionText := stemOf lines fo.2
    let options := padOptions fo.1
    let answerIdx := answerIndexOf answerText
    -- line 1238: `questionText && questionText.length > 5 &&
    -- options.filter(o => o && o.length > 0).length >= 2`
    if questionText ≠ [] ∧ questionText.length > 5 ∧
        (options.filter fun o => o ≠ []).length ≥ 2 then
      some
        { question := ⟨questionText⟩
          options := options.map fun o => (⟨o⟩ : String)
          answer := answerIdx
          explanation :=
            match explanationText with
            | some e => if e = [] then ("No explanation provided.") else ⟨e⟩
            | none => "No explanation provided."
          subject :=
            match subjectText with
            | some e => if e = [] then ("General") else ⟨e⟩
            | none => "General"
          topic :=
            match topicText with
            | some e => if e = [] then ("Miscellaneous") else ⟨e⟩
            | none => "Miscellaneous" }
    else none

/-- The bulk parser `parseManualQuestions` (lines 1126-1254): split into
blocks, parse each independently (the per-block `try`/`catch` means a
failed block only skips itself), collect the questions in order. -/
def parseManualQuestions (text : List Char) : List Question :=
  (questionBlocksOf text).filterMap parseBlock


/-! ## Scoring (`handleSubmitTest`, lines 2128-2165)

JavaScript numbers are modelled as exact rationals. -/

/-- The fields of the `Test` interface (lines 21-30) that the scoring
path reads. -/
structure Test where
  questions : List Question
  marksPerQuestion : ℚ
  negativeMarking : ℚ
deriving DecidableEq, Repr

/-- The counting loop of lines 2128-2140: for each question, the stored
answer is `null` (unanswered), equal to `q.answer` (correct), or anything
else (incorrect).  A missing entry (`undefined`) compares unequal to both
`null` and the answer, hence counts as incorrect, as in JavaScript. -/
def tally : List Question → List (Option ℤ) → ℕ × ℕ × ℕ
  | [], _ => (0, 0, 0)
  | _ :: qs, [] =>
    let r := tally qs []
    (r.1, r.2.1 + 1, r.2.2)
  | q :: qs, a :: as =>
    let r := tally qs as
    match a with
    | none => (r.1, r.2.1, r.2.2 + 1)
    | some v => if v = q.answer then (r.1 + 1, r.2.1, r.2.2) else (r.1, r.2.1 + 1, r.2.2)

/-- The result record assembled at submission (the fields of `TestAttempt`
that the claims are about, lines 2152-2165). -/
structure AttemptRecord where
  correctAnswers : ℕ
  incorrectAnswers : ℕ
  unanswered : ℕ
  totalQuestions : ℕ
  score : ℚ
deriving DecidableEq, Repr

/-- The scoring part of `handleSubmitTest` (lines 2128-2165).  Note the
truthiness fallbacks of lines 2142-2143: `marksPerQuestion || 1` turns a
zero marks-per-question into `1`, and `negativeMarking || 0` leaves any
numeric value unchanged. -/
def handleSubmitTest (test : Test) (userAnswers : List (Option ℤ)) :
    AttemptRecord :=
  let r := tally test.questions userAnswers
  let correctAnswers := r.1
  let incorrectAnswers := r.2.1
  let unanswered := r.2.2
  let marksPerQ : ℚ := if test.marksPerQuestion = 0 then 1 else test.marksPerQuestion
  let negMark : ℚ := if test.negativeMarking = 0 then 0 else test.negativeMarking
  let rawScore : ℚ := correctAnswers * marksPerQ - incorrectAnswers * negMark
  let totalMaxScore : ℚ := test.questions.length * marksPerQ
  let scorePercentage : ℚ :=
    if totalMaxScore > 0 then max 0 (rawScore / totalMaxScore * 100) else 0
  { correctAnswers := correctAnswers
    incorrectAnswers := incorrectAnswers
    unanswered := unanswered
    totalQuestions := test.questions.length
    score := scorePercentage }

/-! ## The attempt state machine (lines 2015-2110)

The module-scope mutable attempt state of `index.tsx` (lines 359-366) is
gathered into one record.  `questionCount` stands for
`currentTest.questions.length`; the currently selected radio button (DOM
state read by `saveCurrentAnswer`) is passed to each transition as an
explicit `sel` argument, and `Date.now()` as an explicit `now` argument
(in milliseconds, so the recorded per-question times are divided by
1000 as at line 2032). -/

/-- The `QuestionStatus` union type (line 47). -/
inductive QStatus where
  | notVisited
  | notAnswered
  | answered
  | marked
  | markedAndAnswered
deriving DecidableEq, Repr

/-- The in-progress attempt state (module-scope variables, lines 355-366). -/
structure AttemptState where
  currentQuestionIndex : ℕ
  userAnswers : List (Option ℤ)
  questionStatuses : List QStatus
  timePerQuestion : List ℚ
  questionStartTime : ℚ
  questionCount : ℕ
deriving DecidableEq, Repr

/-- The function `saveCurrentAnswer` (lines 2015-2027); `sel` is the value
of the checked radio button, or `none` when no option is selected. -/
def saveCurrentAnswer (s : AttemptState) (sel : Option ℤ) : AttemptState :=
  let s := { s with userAnswers := s.userAnswers.set s.currentQuestionIndex sel }
  let currentStatus := s.questionStatuses.getD s.currentQuestionIndex .notVisited
  if sel ≠ none then
    { s with
      questionStatuses :=
        s.questionStatuses.set s.currentQuestionIndex
          (if currentStatus = .marked ∨ currentStatus = .markedAndAnswered then
            .markedAndAnswered
          else .answered) }
  else
    if currentStatus ≠ .marked ∧ currentStatus ≠ .markedAndAnswered then
      { s with
        questionStatuses :=
          s.questionStatuses.set s.currentQuestionIndex .notAnswered }
    else s

/-- The function `navigateToQuestion` (lines 2029-2062).  `newIndex` may
be negative (the `Prev` button at index 0), hence `ℤ`. -/
def navigateToQuestion (s : AttemptState) (newIndex : ℤ) (sel : Option ℤ)
    (now : ℚ) : AttemptState :=
  -- lines 2031-2034: record time for the outgoing question
  let timeSpent : ℚ := (now - s.questionStartTime) / 1000
  let s :=
    { s with
      timePerQuestion :=
        s.timePerQuestion.set s.currentQuestionIndex
          (s.timePerQuestion.getD s.currentQuestionIndex 0 + timeSpent) }
  -- line 2036: save answer for the outgoing question
  let s := saveCurrentAnswer s sel
  -- lines 2039-2050: boundary handling (stay put, reset the timer)
  if (s.questionCount : ℤ) ≤ newIndex then { s with questionStartTime := now }
  else if newIndex < 0 then { s with questionStartTime := now }
  else
    -- lines 2053-2059: move, reset the timer, first-visit status upgrade
    let ni := newIndex.toNat
    let s := { s with currentQuestionIndex := ni, questionStartTime := now }
    if s.questionStatuses.getD ni .notVisited = .notVisited then
      { s with questionStatuses := s.questionStatuses.set ni .notAnswered }
    else s

/-- The mark-for-review click handler (lines 2102-2110): set the flagged
status for the current question, then navigate forward by one. -/
def markReview (s : AttemptState) (sel : Option ℤ) (now : ℚ) : AttemptState :=
  let currentStatus := s.questionStatuses.getD s.currentQuestionIndex .notVisited
  let s :=
    { s with
      questionStatuses :=
        s.questionStatuses.set s.currentQuestionIndex
          (if currentStatus = .answered ∨ currentStatus = .markedAndAnswered then
            .markedAndAnswered
          else .marked) }
  navigateToQuestion s ((s.currentQuestionIndex : ℤ) + 1) sel now


/-! ## Shared helper lemmas -/

/-- Reading back a just-written in-bounds entry. -/
theorem getD_set_self {α : Type} (l : List α) (i : ℕ) (v d : α)
    (h : i < l.length) : (l.set i v).getD i d = v := by
  simp [List.getD, List.getElem?_set, h]

/-- Writing one entry does not change the others. -/
theorem getD_set_ne {α : Type} (l : List α) (i j : ℕ) (v d : α)
    (h : i ≠ j) : (l.set i v).getD j d = l.getD j d := by
  simp [List.getD, List.getElem?_set, h]

/-- The `correct`/`incorrect`/`unanswered` buckets of the counting loop
partition the questions: each question increments exactly one of them. -/
theorem tally_sum (qs : List Question) (as : List (Option ℤ)) :
    (tally qs as).1 + (tally qs as).2.1 + (tally qs as).2.2 = qs.length := by
  induction qs generalizing as with
  | nil => simp [tally]
  | cons q qs ih =>
    cases as with
    | nil =>
      have := ih []
      simp only [tally, List.length_cons]
      omega
    | cons a as =>
      have := ih as
      cases a with
      | none =>
        simp only [tally, List.length_cons]
        omega
      | some v =>
        by_cases hv : v = q.answer <;>
          simp only [tally, hv, if_true, if_false, List.length_cons] <;>
          omega

/-! ## Claims -/

/-- C1 (status: code_bug).  The repository's own documentation
(`IMPROVEMENTS.md`, "Format Example") and the spec's concrete scenario 1
promise that this input parses to a single fully-structured question.
The code instead splits the text at every newline that is followed by a
letter (the middle alternative `\(?Q?\.?\d*\)?\.?\s*` of the split regex
matches the empty string, and the `i` flag makes `(?=[A-Z])` accept any
letter), so each line becomes its own block and the actual output is
these three degenerate questions — not one question with options
`["3","4","5","6"]`, correct index 1. -/
theorem c1_scenario1_actual_output :
    parseManualQuestions (toL ("1. What is 2+2?\na) 3 b) 4 c) 5 d) 6\nAnswer: b\nExplanation: Basic math.\nSubject: Math | Topic: Arithmetic")) =
      [{ question := "What is 2+2?",
         options := ["Option 1", "Option 2", "Option 3", "Option 4"],
         answer := 0, explanation := "No explanation provided.",
         subject := "General", topic := "Miscellaneous" },
       { question := "Explanation: Basic math.",
         options := ["Option 1", "Option 2", "Option 3", "Option 4"],
         answer := 0, explanation := "Basic math.",
         subject := "General", topic := "Miscellaneous" },
       { question := "Subject: Math | Topic: Arithmetic",
         options := ["Option 1", "Option 2", "Option 3", "Option 4"],
         answer := 0, explanation := "No explanation provided.",
         subject := "Math", topic := "Arithmetic" }] := by
  decide

/-- C7 (status: confirmed).  Every attempt record produced at submission
satisfies `correctCount + incorrectCount + unansweredCount = questionCount`,
for every answers sequence whatsoever. -/
theorem c7_counts_partition (test : Test) (answers : List (Option ℤ)) :
    (handleSubmitTest test answers).correctAnswers +
        (handleSubmitTest test answers).incorrectAnswers +
        (handleSubmitTest test answers).unanswered =
      (handleSubmitTest test answers).totalQuestions := by
  simp only [handleSubmitTest]
  exact tally_sum test.questions answers

/-- C10 (status: confirmed).  A block whose trimmed text is shorter than
10 characters is skipped (`if (!lines || lines.length < 10) return;`,
line 1137) and, since the parser output is exactly the per-block results
of the split segments, such a segment contributes no question. -/
theorem c10_short_segment_skipped :
    (∀ b : List Char, (trimJS b).length < 10 → parseBlock b = none) ∧
      ∀ t : List Char,
        parseManualQuestions t = (questionBlocksOf t).filterMap parseBlock := by
  refine ⟨fun b h => ?_, fun t => rfl⟩
  simp only [parseBlock]
  rw [if_pos h]

/-- Witness for C10 at the concrete segment `"\nAnswer: b"` produced by
the scenario-1 input (trimmed length 9). -/
theorem c10_short_segment_skipped_witness :
    (trimJS (toL ("\nAnswer: b"))).length < 10 ∧
      parseBlock (toL ("\nAnswer: b")) = none :=
  ⟨by decide, c10_short_segment_skipped.1 (toL ("\nAnswer: b")) (by decide)⟩


/-- A one-question test with `marksPerQuestion = 0`. -/
def zeroMarksTest : Test :=
  { questions :=
      [{ question := "Sample", options := ["o1", "o2", "o3", "o4"],
         answer := 0, explanation := "e", subject := "s", topic := "t" }]
    marksPerQuestion := 0
    negativeMarking := 0 }

/-- C5, counterexample (status: corrected).  The claim's formula says the
recorded score is `0` whenever `q*m = 0`, for any `marksPerQuestion ≥ 0`.
But line 2142 reads `currentTest.marksPerQuestion || 1`: a zero
`marksPerQuestion` is replaced by `1`, so a one-question test with
`m = 0`, `n = 0` and a correct answer records a score of `100`, not `0`. -/
theorem c5_zero_marks_counterexample :
    (handleSubmitTest zeroMarksTest [some 0]).score = 100 ∧ (100 : ℚ) ≠ 0 := by
  constructor
  · have ht : tally zeroMarksTest.questions [some 0] = (1, 0, 0) := by decide
    simp only [zeroMarksTest] at ht
    simp [handleSubmitTest, ht, zeroMarksTest]
  · norm_num

/-- C5, amended (status: corrected).  For every submitted attempt whose
test has `marksPerQuestion > 0` (the `|| 1` fallback then leaves it
unchanged, and `negativeMarking || 0` is the identity on numbers), the
recorded score is `max 0 ((c*m − w*n)/(q*m)*100)` when `q*m > 0` and `0`
when `q*m = 0`, with `c`/`w` the correct/incorrect counts. -/
theorem c5_score_formula (test : Test) (answers : List (Option ℤ))
    (hm : 0 < test.marksPerQuestion) :
    (handleSubmitTest test answers).score =
      if (test.questions.length : ℚ) * test.marksPerQuestion > 0 then
        max 0
          ((((tally test.questions answers).1 : ℚ) * test.marksPerQuestion -
              ((tally test.questions answers).2.1 : ℚ) * test.negativeMarking) /
            ((test.questions.length : ℚ) * test.marksPerQuestion) * 100)
      else 0 := by
  have hm' : test.marksPerQuestion ≠ 0 := ne_of_gt hm
  by_cases hn : test.negativeMarking = 0 <;>
    simp [handleSubmitTest, hm', hn]

/-- A 10-question test with `marksPerQuestion = 2` and
`negativeMarking = 0.5`, and an answer sheet with 6 correct, 3 incorrect
and 1 unanswered entries: the data of the spec's scenario 3. -/
def scenario3Test : Test :=
  { questions :=
      List.replicate 10
        { question := "Sample", options := ["o1", "o2", "o3", "o4"], answer := 0,
          explanation := "e", subject := "s", topic := "t" }
    marksPerQuestion := 2
    negativeMarking := 1 / 2 }

/-- Answers for `scenario3Test`: 6 correct, 3 incorrect, 1 unanswered. -/
def scenario3Answers : List (Option ℤ) :=
  [some 0, some 0, some 0, some 0, some 0, some 0, some 1, some 1, some 1, none]

/-- Witness for C5 at the spec's scenario 3: the recorded score is exactly
`52.5 = 105/2`. -/
theorem c5_score_formula_witness :
    0 < scenario3Test.marksPerQuestion ∧
      (handleSubmitTest scenario3Test scenario3Answers).score = 105 / 2 := by
  refine ⟨by norm_num [scenario3Test], ?_⟩
  rw [c5_score_formula scenario3Test scenario3Answers (by norm_num [scenario3Test])]
  have ht : tally scenario3Test.questions scenario3Answers = (6, 3, 1) := by decide
  rw [ht]
  norm_num [scenario3Test]


/-- Only non-empty cleaned option texts are pushed (the `if (optText)`
guard at line 1198). -/
theorem optionsFromMatches_ne_nil (ms : List (List Char)) :
    ∀ o ∈ optionsFromMatches ms, o ≠ [] := by
  intro o ho
  rcases List.mem_filterMap.1 ho with ⟨m, _, hm⟩
  by_cases h : cleanOpt m = []
  · simp [h] at hm
  · simp [h] at hm
    exact hm ▸ h

/-- Each loop iteration preserves "every collected option is non-empty". -/
theorem foStep_ne_nil (lines : List Char) (st : List (List Char) × ℕ × Bool)
    (pm : List Char → Option (List Char × List Char))
    (h : ∀ o ∈ st.1, o ≠ []) : ∀ o ∈ (foStep lines st pm).1, o ≠ [] := by
  rcases st with ⟨opts, endIdx, done⟩
  simp only [foStep]
  split
  · exact h
  · split
    · split
      · exact optionsFromMatches_ne_nil _
      · exact optionsFromMatches_ne_nil _
    · exact h

/-- Every option collected by the option-finding loop is non-empty. -/
theorem findOptions_ne_nil (lines : List Char) :
    ∀ o ∈ (findOptions lines).1, o ≠ [] := by
  have gen :
      ∀ (pms : List (List Char → Option (List Char × List Char)))
        (st : List (List Char) × ℕ × Bool), (∀ o ∈ st.1, o ≠ []) →
        ∀ o ∈ (pms.foldl (foStep lines) st).1, o ≠ [] := by
    intro pms
    induction pms with
    | nil => intro st h; exact h
    | cons pm pms ih =>
      intro st h
      exact ih _ (foStep_ne_nil lines st pm h)
  exact gen [p1At, p2At, p3At] ([], lines.length, false) (by simp)

/-- All placeholder texts are non-empty. -/
theorem optDefaults_ne_nil : ∀ o ∈ optDefaults, o ≠ [] := by decide

/-- Padding then slicing always yields exactly 4 options. -/
theorem padOptions_length (l : List (List Char)) :
    (padOptions l).length = 4 := by
  have h4 : optDefaults.length = 4 := rfl
  simp [padOptions, List.length_take, List.length_append, List.length_drop, h4]
  omega

/-- If the collected options are non-empty, so is every padded option. -/
theorem padOptions_ne_nil (l : List (List Char)) (h : ∀ o ∈ l, o ≠ []) :
    ∀ o ∈ padOptions l, o ≠ [] := by
  intro o ho
  have hmem : o ∈ l ++ optDefaults.drop l.length :=
    (List.take_sublist _ _).subset ho
  rcases List.mem_append.1 hmem with h1 | h1
  · exact h o h1
  · exact optDefaults_ne_nil o (List.drop_subset _ _ h1)

/-- The options filter of the acceptance gate (line 1238) always passes:
after padding, all 4 options are non-empty. -/
theorem gate_filter_always (lines : List Char) :
    ((padOptions (findOptions lines).1).filter fun o => o ≠ []).length ≥ 2 := by
  have hall : ∀ o ∈ padOptions (findOptions lines).1, o ≠ [] :=
    padOptions_ne_nil _ (findOptions_ne_nil lines)
  have : (padOptions (findOptions lines).1).filter (fun o => o ≠ []) =
      padOptions (findOptions lines).1 := by
    apply List.filter_eq_self.2
    intro o ho
    simpa using hall o ho
  rw [this, padOptions_length]
  omega

/-- C6 (status: confirmed).  Every question the bulk parser emits, on any
input, has exactly 4 options, all non-empty, and a correct-answer index
in `[0, 3]`. -/
theorem c6_emitted_question_invariants (t : List Char) (q : Question)
    (hq : q ∈ parseManualQuestions t) :
    q.options.length = 4 ∧ (∀ o ∈ q.options, o ≠ "") ∧
      0 ≤ q.answer ∧ q.answer ≤ 3 := by
  rcases List.mem_filterMap.1 hq with ⟨b, _, hb⟩
  simp only [parseBlock] at hb
  split at hb
  · exact absurd hb (by simp)
  · split at hb
    · rcases Option.some.injEq .. ▸ hb with rfl
      refine ⟨?_, ?_, ?_, ?_⟩
      · simp [List.length_map, padOptions_length]
      · intro o ho
        rcases List.mem_map.1 ho with ⟨o', ho', rfl⟩
        have hne : o' ≠ [] :=
          padOptions_ne_nil _ (findOptions_ne_nil _) o' ho'
        intro hcon
        exact hne (congrArg String.data hcon)
      · exact le_max_left 0 _
      · exact max_le (by norm_num) (min_le_left 3 _)
    · exact absurd hb (by simp)

/-- The single question parsed from the single-line input
`"1. What is 2+2?"`. -/
def parsedStemQ : Question :=
  { question := "What is 2+2?",
    options := ["Option 1", "Option 2", "Option 3", "Option 4"],
    answer := 0, explanation := "No explanation provided.",
    subject := "General", topic := "Miscellaneous" }

/-- Witness for C6 at a concrete input and its parsed question. -/
theorem c6_emitted_question_invariants_witness :
    parsedStemQ ∈ parseManualQuestions (toL ("1. What is 2+2?")) ∧
      (parsedStemQ.options.length = 4 ∧ (∀ o ∈ parsedStemQ.options, o ≠ "") ∧
        0 ≤ parsedStemQ.answer ∧ parsedStemQ.answer ≤ 3) :=
  ⟨by decide, c6_emitted_question_invariants (toL ("1. What is 2+2?")) parsedStemQ (by decide)⟩


/-- C3, counterexample (status: corrected).  The input `"Hello world."`
is a single segment in which zero options are found, yet the parser
emits a question for it (with the four padded placeholder options):
a segment with fewer than 2 found options is not dropped. -/
theorem c3_counterexample :
    (findOptions (trimJS (toL ("Hello world.")))).1.length = 0 ∧
      parseManualQuestions (toL ("Hello world.")) =
        [{ question := "Hello world.",
           options := ["Option 1", "Option 2", "Option 3", "Option 4"],
           answer := 0, explanation := "No explanation provided.",
           subject := "General", topic := "Miscellaneous" }] := by
  decide

/-- C3, amended (status: corrected).  A segment yields a question exactly
when its trimmed text has length at least 10 and the extracted stem is
longer than 5 characters.  The "at least 2 non-empty options found"
condition of the gate is vacuous, because the options list is padded with
non-empty placeholders to length 4 *before* the gate runs; and each
segment is processed independently (the output is exactly the
concatenation of the per-segment results). -/
theorem c3_gate_is_stem_length :
    (∀ block : List Char,
        (parseBlock block).isSome ↔
          10 ≤ (trimJS block).length ∧
            5 < (stemOf (trimJS block) (findOptions (trimJS block)).2).length) ∧
      ∀ t : List Char,
        parseManualQuestions t = (questionBlocksOf t).filterMap parseBlock := by
  refine ⟨fun block => ?_, fun t => rfl⟩
  simp only [parseBlock]
  split
  · rename_i h
    simp only [Option.isSome_none, Bool.false_eq_true, false_iff, not_and]
    intro h10
    omega
  · rename_i h
    split
    · rename_i hg
      simp only [Option.isSome_some, true_iff]
      exact ⟨by omega, hg.2.1⟩
    · rename_i hg
      simp only [Option.isSome_none, Bool.false_eq_true, false_iff, not_and]
      intro _ h5
      refine absurd ?_ hg
      refine ⟨?_, h5, gate_filter_always _⟩
      intro hnil
      rw [hnil] at h5
      simp at h5


/-- When no suffix of the remaining text starts with a split match, the
splitter walk never cuts. -/
theorem jsSplitAux_no_marks (rest : List Char) :
    ∀ cur : List Char,
      (∀ s : List Char, s <:+ rest → splitMarkAt s = false) →
      jsSplitAux cur rest = [cur.reverse ++ rest] := by
  induction rest with
  | nil => intro cur _; simp [jsSplitAux]
  | cons c cs ih =>
    intro cur h
    have h0 : splitMarkAt (c :: cs) = false := h _ (List.suffix_refl _)
    rw [jsSplitAux, if_neg (by simp [h0])]
    rw [ih (c :: cur) fun s hsz => h s (hsz.trans (List.suffix_cons c cs))]
    simp

/-- C2, counterexample (status: corrected).  The input `"Hello world."`
contains no recognizable numbering marker under any reading: the split
lookahead matches at no position, and the text contains no digit, no
`Q`/`q` and no newline.  Yet the parser does not return the empty
sequence: the whole text becomes one segment and is emitted as a question
(with placeholder options). -/
theorem c2_counterexample :
    (∀ i : Fin ((toL ("Hello world.")).length + 1),
        splitMarkAt ((toL ("Hello world.")).drop i.val) = false) ∧
      ((toL ("Hello world.")).all fun c => !asciiDigit c && !qCI c && c ≠ '\n') = true ∧
      parseManualQuestions (toL ("Hello world.")) ≠ [] := by
  decide

/-- C2, amended (status: corrected).  For every input in which the split
lookahead matches at no position, the parser treats the whole text as a
single segment and therefore returns *at most one* question (the empty
sequence exactly when that one segment fails validation); and the parser
is a total function, so it never throws on any input. -/
theorem c2_no_markers_at_most_one (t : List Char)
    (h : ∀ i : Fin (t.length + 1), splitMarkAt (t.drop i.val) = false) :
    (parseManualQuestions t).length ≤ 1 := by
  have hs : ∀ s : List Char, s <:+ t → splitMarkAt s = false := by
    intro s hsuf
    have hd := List.suffix_iff_eq_drop.mp hsuf
    have hle : t.length - s.length < t.length + 1 := by omega
    rw [hd]
    exact h ⟨t.length - s.length, hle⟩
  cases t with
  | nil => decide
  | cons c cs =>
    have h1 : jsSplit (c :: cs) = [c :: cs] := by
      rw [jsSplit,
        jsSplitAux_no_marks cs [c] fun s hsz =>
          hs s (hsz.trans (List.suffix_cons c cs))]
      simp
    calc (parseManualQuestions (c :: cs)).length
        ≤ (questionBlocksOf (c :: cs)).length :=
          List.length_filterMap_le parseBlock _
      _ ≤ (jsSplit (c :: cs)).length := List.length_filter_le _ _
      _ = 1 := by rw [h1]; rfl

/-- Witness for C2 (amended) at the concrete marker-free input
`"Hi there."`. -/
theorem c2_no_markers_at_most_one_witness :
    (∀ i : Fin ((toL ("Hi there.")).length + 1),
        splitMarkAt ((toL ("Hi there.")).drop i.val) = false) ∧
      (parseManualQuestions (toL ("Hi there."))).length ≤ 1 :=
  ⟨by decide, c2_no_markers_at_most_one (toL ("Hi there.")) (by decide)⟩


/-- A remainder left by `nOne` is a suffix of the input. -/
theorem nOne_suffix (f : Char → Bool) (s : List Char) :
    ∀ r ∈ nOne f s, r <:+ s := by
  cases s with
  | nil => simp [nOne]
  | cons c cs =>
    intro r hr
    simp only [nOne] at hr
    split at hr
    · simp only [List.mem_singleton] at hr
      exact hr ▸ List.suffix_cons c cs
    · simp at hr

/-- A remainder left by `nOpt` is a suffix of the input. -/
theorem nOpt_suffix (f : Char → Bool) (s : List Char) :
    ∀ r ∈ nOpt f s, r <:+ s := by
  cases s with
  | nil =>
    intro r hr
    simp only [nOpt, List.mem_singleton] at hr
    simp [hr]
  | cons c cs =>
    intro r hr
    simp only [nOpt] at hr
    split at hr
    · rcases List.mem_cons.1 hr with h1 | h1
      · exact h1 ▸ List.suffix_cons c cs
      · simp only [List.mem_singleton] at h1
        simp [h1]
    · simp only [List.mem_singleton] at hr
      simp [hr]

/-- A remainder left by `nStar` is a suffix of the input. -/
theorem nStar_suffix (f : Char → Bool) (s : List Char) :
    ∀ r ∈ nStar f s, r <:+ s := by
  induction s with
  | nil => simp [nStar]
  | cons c cs ih =>
    intro r hr
    simp only [nStar] at hr
    split at hr
    · rcases List.mem_append.1 hr with h1 | h1
      · exact (ih r h1).trans (List.suffix_cons c cs)
      · simp only [List.mem_singleton] at h1
        simp [h1]
    · simp only [List.mem_singleton] at hr
      simp [hr]

/-- Sequencing preserves the suffix property. -/
theorem nseq_suffix {rs : List (List Char)} {m : List Char → List (List Char)}
    {base : List Char} (h1 : ∀ x ∈ rs, x <:+ base)
    (h2 : ∀ x : List Char, ∀ r ∈ m x, r <:+ x) :
    ∀ y ∈ nseq rs m, y <:+ base := by
  intro y hy
  rcases List.mem_flatMap.1 hy with ⟨x, hx, hmx⟩
  exact (h2 x y hmx).trans (h1 x hx)

/-- If the first split alternative accepts, an ASCII letter (of either
case) stands right after the consumed marker. -/
theorem altA1_letter (r : List Char) (h : altA1 r = true) :
    ∃ c rest, (c :: rest) <:+ r ∧ asciiLetter c = true := by
  rcases List.any_eq_true.1 h with ⟨y, hy, hlet⟩
  have l1 : ∀ x ∈ nOne asciiDigit r, x <:+ r := nOne_suffix _ _
  have l2 := nseq_suffix l1 fun x => nStar_suffix asciiDigit x
  have l3 := nseq_suffix l2 fun x => nOne_suffix (fun c => c = '.' || c = ')') x
  have l4 := nseq_suffix l3 fun x => nStar_suffix jsWS x
  have hsuf : y <:+ r := l4 y hy
  cases y with
  | nil => simp [headLetter] at hlet
  | cons c rest => exact ⟨c, rest, hsuf, by simpa [headLetter] using hlet⟩

/-- If the second split alternative accepts, an ASCII letter (of either
case) stands right after the consumed marker. -/
theorem altA2_letter (r : List Char) (h : altA2 r = true) :
    ∃ c rest, (c :: rest) <:+ r ∧ asciiLetter c = true := by
  rcases List.any_eq_true.1 h with ⟨y, hy, hlet⟩
  have l1 : ∀ x ∈ nOpt (fun c => c = '(') r, x <:+ r := nOpt_suffix _ _
  have l2 := nseq_suffix l1 fun x => nOpt_suffix qCI x
  have l3 := nseq_suffix l2 fun x => nOpt_suffix (fun c => c = '.') x
  have l4 := nseq_suffix l3 fun x => nStar_suffix asciiDigit x
  have l5 := nseq_suffix l4 fun x => nOpt_suffix (fun c => c = ')') x
  have l6 := nseq_suffix l5 fun x => nOpt_suffix (fun c => c = '.') x
  have l7 := nseq_suffix l6 fun x => nStar_suffix jsWS x
  have hsuf : y <:+ r := l7 y hy
  cases y with
  | nil => simp [headLetter] at hlet
  | cons c rest => exact ⟨c, rest, hsuf, by simpa [headLetter] using hlet⟩

/-- If the third split alternative accepts, an ASCII letter (of either
case) stands right after the consumed marker. -/
theorem altA3_letter (r : List Char) (h : altA3 r = true) :
    ∃ c rest, (c :: rest) <:+ r ∧ asciiLetter c = true := by
  rcases List.any_eq_true.1 h with ⟨y, hy, hlet⟩
  have l1 : ∀ x ∈ nOne qCI r, x <:+ r := nOne_suffix _ _
  have l2 := nseq_suffix l1 fun x => nStar_suffix jsWS x
  have l3 := nseq_suffix l2 fun x => nOpt_suffix (fun c => c = '.') x
  have l4 := nseq_suffix l3 fun x => nStar_suffix jsWS x
  have l5 := nseq_suffix l4 fun x => nStar_suffix asciiDigit x
  have l6 := nseq_suffix l5 fun x => nOpt_suffix (fun c => c = '.') x
  have l7 := nseq_suffix l6 fun x => nStar_suffix jsWS x
  have hsuf : y <:+ r := l7 y hy
  cases y with
  | nil => simp [headLetter] at hlet
  | cons c rest => exact ⟨c, rest, hsuf, by simpa [headLetter] using hlet⟩

/-- C4, counterexample (status: corrected).  In `"X\n2. apple pie"` the
only candidate marker, `2.` at a line start, is followed by the
*lowercase* letter `a`, yet the splitter does cut there (two segments
result): the `i` flag on the split regex makes `(?=[A-Z])` accept
lowercase letters, so the claim's "no split" prediction fails. -/
theorem c4_counterexample :
    jsSplit (toL ("X\n2. apple pie")) = [toL ("X"), toL ("\n2. apple pie")] ∧
      splitMarkAt (toL ("\n2. apple pie")) = true := by
  decide

/-- C4, amended (status: corrected).  A position is accepted as a split
point only if it is a newline and an ASCII letter — of either case, since
the regex's `i` flag makes `[A-Z]` case-insensitive — follows the
(possibly empty) marker. -/
theorem c4_split_requires_letter (s : List Char) (h : splitMarkAt s = true) :
    s.head? = some '\n' ∧
      ∃ c rest, (c :: rest) <:+ s ∧ asciiLetter c = true := by
  unfold splitMarkAt at h
  split at h
  · rename_i rest
    refine ⟨rfl, ?_⟩
    rcases List.any_eq_true.1 h with ⟨r1, hr1, halt⟩
    have hsuf1 : r1 <:+ rest := nStar_suffix jsWS rest r1 hr1
    have hone : ∃ c rest', (c :: rest') <:+ r1 ∧ asciiLetter c = true := by
      rcases Bool.or_eq_true .. ▸ halt with h12 | h3
      · rcases Bool.or_eq_true .. ▸ h12 with h1 | h2
        · exact altA1_letter r1 h1
        · exact altA2_letter r1 h2
      · exact altA3_letter r1 h3
    rcases hone with ⟨c, rest', hsub, hlet⟩
    exact ⟨c, rest', (hsub.trans hsuf1).trans (List.suffix_cons '\n' rest), hlet⟩
  · simp at h

/-- Witness for C4 (amended) at the concrete suffix `"\n3. banana"`. -/
theorem c4_split_requires_letter_witness :
    splitMarkAt (toL ("\n3. banana")) = true ∧
      ((toL ("\n3. banana")).head? = some '\n' ∧
        ∃ c rest, (c :: rest) <:+ toL ("\n3. banana") ∧ asciiLetter c = true) :=
  ⟨by decide, c4_split_requires_letter (toL ("\n3. banana")) (by decide)⟩


/-- The answer commit never moves the current index. -/
theorem saveCurrentAnswer_idx (s : AttemptState) (sel : Option ℤ) :
    (saveCurrentAnswer s sel).currentQuestionIndex = s.currentQuestionIndex := by
  unfold saveCurrentAnswer
  dsimp only
  split
  · rfl
  · split
    · rfl
    · rfl

/-- The answer commit never touches the per-question times. -/
theorem saveCurrentAnswer_time (s : AttemptState) (sel : Option ℤ) :
    (saveCurrentAnswer s sel).timePerQuestion = s.timePerQuestion := by
  unfold saveCurrentAnswer
  dsimp only
  split
  · rfl
  · split
    · rfl
    · rfl

/-- The answer commit never changes the question count. -/
theorem saveCurrentAnswer_count (s : AttemptState) (sel : Option ℤ) :
    (saveCurrentAnswer s sel).questionCount = s.questionCount := by
  unfold saveCurrentAnswer
  dsimp only
  split
  · rfl
  · split
    · rfl
    · rfl

/-- The answer commit never changes the timer origin. -/
theorem saveCurrentAnswer_start (s : AttemptState) (sel : Option ℤ) :
    (saveCurrentAnswer s sel).questionStartTime = s.questionStartTime := by
  unfold saveCurrentAnswer
  dsimp only
  split
  · rfl
  · split
    · rfl
    · rfl

/-- The answer commit stores the selection at the current index, in every
branch. -/
theorem saveCurrentAnswer_answers (s : AttemptState) (sel : Option ℤ) :
    (saveCurrentAnswer s sel).userAnswers =
      s.userAnswers.set s.currentQuestionIndex sel := by
  unfold saveCurrentAnswer
  dsimp only
  split
  · rfl
  · split
    · rfl
    · rfl

/-- With no selection and a flagged current question, the answer commit
leaves the statuses untouched (the `marked` state is preserved, lines
2022-2026). -/
theorem saveCurrentAnswer_none_flagged (s : AttemptState)
    (h : s.questionStatuses.getD s.currentQuestionIndex .notVisited = .marked ∨
        s.questionStatuses.getD s.currentQuestionIndex .notVisited =
          .markedAndAnswered) :
    (saveCurrentAnswer s none).questionStatuses = s.questionStatuses := by
  unfold saveCurrentAnswer
  dsimp only
  rw [if_neg (by simp)]
  simp only [List.getD, List.get?_eq_getElem?] at h
  rcases h with h | h <;> rw [if_neg (by simp [h])]

/-- C8 (status: confirmed).  Marking an unanswered, unselected question
for review (which then navigates forward by one) leaves its status at
`marked`, not `markedAndAnswered`. -/
theorem c8_mark_unanswered_stays_marked (s : AttemptState) (now : ℚ)
    (hlen : s.currentQuestionIndex < s.questionStatuses.length)
    (hst : s.questionStatuses.getD s.currentQuestionIndex .notVisited =
      QStatus.notAnswered) :
    (markReview s none now).questionStatuses.getD s.currentQuestionIndex
      .notVisited = QStatus.marked := by
  have h1 : markReview s none now =
      navigateToQuestion
        { s with
          questionStatuses :=
            s.questionStatuses.set s.currentQuestionIndex
              (if s.questionStatuses.getD s.currentQuestionIndex .notVisited =
                    QStatus.answered ∨
                  s.questionStatuses.getD s.currentQuestionIndex .notVisited =
                    QStatus.markedAndAnswered then
                QStatus.markedAndAnswered
              else QStatus.marked) }
        ((s.currentQuestionIndex : ℤ) + 1) none now := rfl
  rw [h1, hst, if_neg (by simp)]
  unfold navigateToQuestion
  dsimp only
  have hset : ∀ d : QStatus,
      (s.questionStatuses.set s.currentQuestionIndex QStatus.marked).getD
        s.currentQuestionIndex d = QStatus.marked :=
    fun d => getD_set_self _ _ _ _ hlen
  have hflag : ∀ (ua : List (Option ℤ)) (tpq : List ℚ) (qst : ℚ) (qc : ℕ),
      (saveCurrentAnswer
          { currentQuestionIndex := s.currentQuestionIndex, userAnswers := ua,
            questionStatuses :=
              s.questionStatuses.set s.currentQuestionIndex QStatus.marked,
            timePerQuestion := tpq, questionStartTime := qst,
            questionCount := qc }
          none).questionStatuses =
        s.questionStatuses.set s.currentQuestionIndex QStatus.marked :=
    fun ua tpq qst qc =>
      saveCurrentAnswer_none_flagged _ (Or.inl (hset _))
  split
  · rw [hflag]
    exact hset _
  · split
    · rw [hflag]
      exact hset _
    · split
      · rw [getD_set_ne, hflag]
        · exact hset _
        · omega
      · rw [hflag]
        exact hset _

/-- A two-question attempt state sitting at question 0, which is
`notAnswered` and has no selection. -/
def sampleState : AttemptState :=
  { currentQuestionIndex := 0
    userAnswers := [none, none]
    questionStatuses := [.notAnswered, .notVisited]
    timePerQuestion := [0, 0]
    questionStartTime := 0
    questionCount := 2 }

/-- Witness for C8 at a concrete two-question state. -/
theorem c8_mark_unanswered_stays_marked_witness :
    sampleState.currentQuestionIndex < sampleState.questionStatuses.length ∧
      sampleState.questionStatuses.getD sampleState.currentQuestionIndex
          .notVisited = QStatus.notAnswered ∧
      (markReview sampleState none 5).questionStatuses.getD
          sampleState.currentQuestionIndex .notVisited = QStatus.marked :=
  ⟨by decide, by decide,
    c8_mark_unanswered_stays_marked sampleState 5 (by decide) (by decide)⟩

/-- C9 (status: confirmed).  Navigating to an out-of-bounds index leaves
the current question index unchanged (and, the machine being a total
function, raises no error); the outgoing question's time and answer
commits still happen, and the per-question timer is reset, exactly as in
any navigation. -/
theorem c9_oob_navigation_noop (s : AttemptState) (newIndex : ℤ)
    (sel : Option ℤ) (now : ℚ)
    (hoob : newIndex < 0 ∨ (s.questionCount : ℤ) ≤ newIndex)
    (ht : s.currentQuestionIndex < s.timePerQuestion.length)
    (ha : s.currentQuestionIndex < s.userAnswers.length) :
    (navigateToQuestion s newIndex sel now).currentQuestionIndex =
        s.currentQuestionIndex ∧
      (navigateToQuestion s newIndex sel now).timePerQuestion.getD
          s.currentQuestionIndex 0 =
        s.timePerQuestion.getD s.currentQuestionIndex 0 +
          (now - s.questionStartTime) / 1000 ∧
      (navigateToQuestion s newIndex sel now).userAnswers.getD
          s.currentQuestionIndex none = sel ∧
      (navigateToQuestion s newIndex sel now).questionStartTime = now := by
  unfold navigateToQuestion
  dsimp only
  rw [saveCurrentAnswer_count]
  rcases hoob with hneg | hge
  · rw [if_neg (by dsimp only; omega), if_pos hneg]
    refine ⟨by rw [saveCurrentAnswer_idx], ?_, ?_, rfl⟩
    · show (saveCurrentAnswer _ sel).timePerQuestion.getD _ 0 = _
      rw [saveCurrentAnswer_time]
      dsimp only
      rw [getD_set_self _ _ _ _ ht]
    · show (saveCurrentAnswer _ sel).userAnswers.getD _ none = sel
      rw [saveCurrentAnswer_answers]
      dsimp only
      rw [getD_set_self _ _ _ _ ha]
  · rw [if_pos (by dsimp only; exact hge)]
    refine ⟨by rw [saveCurrentAnswer_idx], ?_, ?_, rfl⟩
    · show (saveCurrentAnswer _ sel).timePerQuestion.getD _ 0 = _
      rw [saveCurrentAnswer_time]
      dsimp only
      rw [getD_set_self _ _ _ _ ht]
    · show (saveCurrentAnswer _ sel).userAnswers.getD _ none = sel
      rw [saveCurrentAnswer_answers]
      dsimp only
      rw [getD_set_self _ _ _ _ ha]

/-- A two-question attempt state sitting at question 1 with a selection
made, used to exercise out-of-bounds forward navigation. -/
def navState : AttemptState :=
  { currentQuestionIndex := 1
    userAnswers := [some 2, none]
    questionStatuses := [.answered, .notAnswered]
    timePerQuestion := [3, 4]
    questionStartTime := 100
    questionCount := 2 }

/-- Witness for C9: navigating from question 1 of 2 to index 2 (past the
end). -/
theorem c9_oob_navigation_noop_witness :
    ((2 : ℤ) < 0 ∨ (navState.questionCount : ℤ) ≤ 2) ∧
      (navigateToQuestion navState 2 (some 1) 1100).currentQuestionIndex =
          navState.currentQuestionIndex ∧
        (navigateToQuestion navState 2 (some 1) 1100).timePerQuestion.getD
            navState.currentQuestionIndex 0 =
          navState.timePerQuestion.getD navState.currentQuestionIndex 0 +
            (1100 - navState.questionStartTime) / 1000 ∧
        (navigateToQuestion navState 2 (some 1) 1100).userAnswers.getD
            navState.currentQuestionIndex none = some 1 ∧
        (navigateToQuestion navState 2 (some 1) 1100).questionStartTime = 1100 :=
  ⟨Or.inr (by decide),
    c9_oob_navigation_noop navState 2 (some 1) 1100 (Or.inr (by decide))
      (by decide) (by decide)⟩


end Upsc
